import Mathlib

/-!
Shallow embedding of `streamlit_meta_state/core.py`.

The repository provides a descriptor (`SessionVar`), a transparent forwarding
wrapper (`SessionVar._Wrapper`) and a metaclass (`MetaSessionState`) that
together persist annotated instance attributes in Streamlit's per-session
key/value store and deduplicate instances by a caller-supplied identifier.

Modelling conventions:
* Python values are the inductive `PyVal`; a managed instance is a heap
  address (`PyVal.inst`), the heap being an explicit list of `Instance`
  records, so Python object identity is address equality.
* The Streamlit session store is an association list `Store` from string keys
  to `PyVal`, with Python-dict update semantics (`dictSet`).
* Streamlit's `require_valid_user_key` is external to this repository; it is
  modelled as an abstract boolean predicate `valid : String → Bool` passed to
  every operation, raising `Err.invalidKeyError` when it returns `false`.
* Exceptions are modelled with `Except Err`; every stateful operation returns
  its (possibly unchanged) state alongside the `Except` result, mirroring the
  fact that a Python exception does not roll state back.
-/

/-- A Python value, restricted to the shapes the library manipulates:
`None`, integers, strings, lists, plain objects with an attribute dict,
references to managed instances on the heap, and `SessionVar` descriptor
objects (so that descriptor-valued attribute reads are representable). -/
inductive PyVal where
  | none
  | int (n : Int)
  | str (s : String)
  | list (xs : List PyVal)
  | obj (attrs : List (String × PyVal))
  | inst (addr : Nat)
  | descr (name : String)

mutual
/-- Structural equality on `PyVal`, modelling Python `==` on the value shapes
above (`beqList` for list elements, `beqAttrs` for object attribute dicts). -/
def PyVal.beq : PyVal → PyVal → Bool
  | .none, .none => true
  | .int a, .int b => a == b
  | .str a, .str b => a == b
  | .list xs, .list ys => PyVal.beqList xs ys
  | .obj a, .obj b => PyVal.beqAttrs a b
  | .inst a, .inst b => a == b
  | .descr a, .descr b => a == b
  | _, _ => false

def PyVal.beqList : List PyVal → List PyVal → Bool
  | [], [] => true
  | x :: xs, y :: ys => PyVal.beq x y && PyVal.beqList xs ys
  | _, _ => false

def PyVal.beqAttrs : List (String × PyVal) → List (String × PyVal) → Bool
  | [], [] => true
  | (k1, v1) :: xs, (k2, v2) :: ys => k1 == k2 && PyVal.beq v1 v2 && PyVal.beqAttrs xs ys
  | _, _ => false
end

mutual
theorem PyVal.beq_refl : (v : PyVal) → PyVal.beq v v = true
  | .none => rfl
  | .int n => by simp [PyVal.beq]
  | .str s => by simp [PyVal.beq]
  | .list xs => by simp [PyVal.beq, PyVal.beqList_refl xs]
  | .obj attrs => by simp [PyVal.beq, PyVal.beqAttrs_refl attrs]
  | .inst a => by simp [PyVal.beq]
  | .descr n => by simp [PyVal.beq]

theorem PyVal.beqList_refl : (xs : List PyVal) → PyVal.beqList xs xs = true
  | [] => rfl
  | x :: xs => by simp [PyVal.beqList, PyVal.beq_refl x, PyVal.beqList_refl xs]

theorem PyVal.beqAttrs_refl : (xs : List (String × PyVal)) → PyVal.beqAttrs xs xs = true
  | [] => rfl
  | (k, v) :: xs => by simp [PyVal.beqAttrs, PyVal.beq_refl v, PyVal.beqAttrs_refl xs]
end

/-- Errors the embedded code can raise. -/
inductive Err where
  | keyError
  | attributeError
  | invalidKeyError
  | typeError
  | indexError
  deriving Repr, DecidableEq

/-- Lookup in a Python-dict-like association list. -/
def dictLookup {α : Type} : List (String × α) → String → Option α
  | [], _ => Option.none
  | (k1, v) :: rest, k => if k1 = k then some v else dictLookup rest k

/-- Python-dict assignment: overwrite in place if the key is present,
append otherwise. -/
def dictSet {α : Type} : List (String × α) → String → α → List (String × α)
  | [], k, v => [(k, v)]
  | (k1, v1) :: rest, k, v =>
      if k1 = k then (k, v) :: rest else (k1, v1) :: dictSet rest k v

/-- Python-dict `pop`: drop the entry with the given key, if present. -/
def dictRemove {α : Type} : List (String × α) → String → List (String × α)
  | [], _ => []
  | (k1, v1) :: rest, k => if k1 = k then rest else (k1, v1) :: dictRemove rest k

theorem dictLookup_dictSet_self {α : Type} (d : List (String × α)) (k : String) (v : α) :
    dictLookup (dictSet d k v) k = some v := by
  induction d with
  | nil => simp [dictSet, dictLookup]
  | cons hd tl ih =>
      obtain ⟨k1, v1⟩ := hd
      by_cases h : k1 = k <;> simp [dictSet, dictLookup, h, ih]

theorem dictLookup_dictSet_ne {α : Type} (d : List (String × α)) (k k2 : String) (v : α)
    (h : k ≠ k2) : dictLookup (dictSet d k v) k2 = dictLookup d k2 := by
  induction d with
  | nil => simp [dictSet, dictLookup, h]
  | cons hd tl ih =>
      obtain ⟨k1, v1⟩ := hd
      by_cases h1 : k1 = k
      · subst h1; simp [dictSet, dictLookup, h]
      · simp [dictSet, dictLookup, h1, ih]

/-- Streamlit's per-session key/value store (`st.session_state`), modelled as
an association list with Python-dict update semantics. It holds raw field
values under field keys and managed instances under instance keys. -/
def Store : Type := List (String × PyVal)

def storeLookup (s : Store) (k : String) : Option PyVal := dictLookup s k

def storeSet (s : Store) (k : String) (v : PyVal) : Store := dictSet s k v

mutual
/-- `str(v)` as used by the f-strings in `core.py` when interpolating the
caller-supplied identifier. Scalar shapes are rendered exactly; the reprs of
objects and instances involve memory addresses in CPython and are abbreviated
here (no claim interpolates them). -/
def pyStr : PyVal → String
  | .none => "None"
  | .int n => toString n
  | .str s => s
  | .list xs => "[" ++ pyStrElems xs ++ "]"
  | .obj _ => "<object>"
  | .inst a => "<instance " ++ toString a ++ ">"
  | .descr n => "<SessionVar " ++ n ++ ">"

def pyStrElems : List PyVal → String
  | [] => ""
  | [x] => pyStr x
  | x :: y :: rest => pyStr x ++ ", " ++ pyStrElems (y :: rest)
end

/-- Python `getattr` on a plain value: objects expose their attribute dict,
every other shape has no plain data attributes in this model. -/
def pyGetattr : PyVal → String → Except Err PyVal
  | .obj attrs, item =>
      match dictLookup attrs item with
      | some v => .ok v
      | Option.none => .error .attributeError
  | _, _ => .error .attributeError

/-- Python `setattr` on a plain value: allowed on objects (updating the
attribute dict in place), an `AttributeError` on every other shape. -/
def pySetattr : PyVal → String → PyVal → Except Err PyVal
  | .obj attrs, name, v => .ok (.obj (dictSet attrs name v))
  | _, _, _ => .error .attributeError

/-- Python subscription `v[item]` for the indexable shapes of the model:
lists with (possibly negative) integer indices, and strings. -/
def pyGetItem : PyVal → PyVal → Except Err PyVal
  | .list xs, .int n =>
      let i : Int := if n < 0 then n + xs.length else n
      if h : 0 ≤ i ∧ i.toNat < xs.length then .ok (xs.get ⟨i.toNat, h.2⟩)
      else .error .indexError
  | .str s, .int n =>
      let i : Int := if n < 0 then n + s.length else n
      if h : 0 ≤ i ∧ i.toNat < s.data.length then .ok (.str (String.mk [s.data.get ⟨i.toNat, h.2⟩]))
      else .error .indexError
  | _, _ => .error .typeError

/-- Python `len(v)`. -/
def pyLen : PyVal → Except Err Nat
  | .list xs => .ok xs.length
  | .str s => .ok s.length
  | .obj _ => .error .typeError
  | _ => .error .typeError

/-- Python `iter(v)`, flattened to the list of produced elements. -/
def pyIter : PyVal → Except Err (List PyVal)
  | .list xs => .ok xs
  | .str s => .ok (s.data.map (fun c => .str (String.mk [c])))
  | _ => .error .typeError

/-- `SessionVar._Wrapper`: pairs a field value with its derived session key
(plus the two bookkeeping references the constructor stores via
`object.__setattr__`): `_value`, `_key`, `_descriptor` (identified by its
bound name) and `_instance` (identified by its heap address). -/
structure Wrapper where
  value : PyVal
  key : String
  descrName : String
  instRef : Nat

/-- The four internal slot names `_Wrapper.__setattr__` and `__getattr__`
treat specially. -/
def internalNames : List String := ["_value", "_key", "_descriptor", "_instance"]

/-- Attribute read on a wrapper. Normal lookup finds the read-only `key`
property and the four internal slots; any other name falls through to
`_Wrapper.__getattr__`, which delegates to the wrapped value. -/
def Wrapper.getattrW (w : Wrapper) (item : String) : Except Err PyVal :=
  if item = "key" then .ok (.str w.key)
  else if item = "_value" then .ok w.value
  else if item = "_key" then .ok (.str w.key)
  else if item = "_descriptor" then .ok (.descr w.descrName)
  else if item = "_instance" then .ok (.inst w.instRef)
  else pyGetattr w.value item

/-- `_Wrapper.__setattr__`: the four internal slots raise `AttributeError`;
every other name (including `key`) is forwarded to `setattr` on the wrapped
value. The in-place mutation of the wrapped value is returned as an updated
wrapper. -/
def Wrapper.setattrW (w : Wrapper) (name : String) (v : PyVal) : Except Err Wrapper :=
  if name ∈ internalNames then .error .attributeError
  else
    match pySetattr w.value name v with
    | .ok newVal => .ok { w with value := newVal }
    | .error e => .error e

/-- `_Wrapper.__eq__`: compare the wrapped value with the other operand. -/
def Wrapper.eqW (w : Wrapper) (other : PyVal) : Bool := PyVal.beq w.value other

/-- `_Wrapper.__getitem__`: delegate subscription to the wrapped value. -/
def Wrapper.getitem (w : Wrapper) (item : PyVal) : Except Err PyVal :=
  pyGetItem w.value item

/-- `_Wrapper.__setitem__`: delegate item assignment to the wrapped value. -/
def Wrapper.setitem (w : Wrapper) (item v : PyVal) : Except Err Wrapper :=
  match w.value, item with
  | .list xs, .int n =>
      let i : Int := if n < 0 then n + xs.length else n
      if 0 ≤ i ∧ i.toNat < xs.length then .ok { w with value := .list (xs.set i.toNat v) }
      else .error .indexError
  | _, _ => .error .typeError

/-- `_Wrapper.__iter__`: delegate iteration to the wrapped value. -/
def Wrapper.iterW (w : Wrapper) : Except Err (List PyVal) := pyIter w.value

/-- `_Wrapper.__len__`: delegate `len` to the wrapped value. -/
def Wrapper.lenW (w : Wrapper) : Except Err Nat := pyLen w.value

/-- `_Wrapper.__str__`: delegate to `str` of the wrapped value. -/
def Wrapper.strW (w : Wrapper) : String := pyStr w.value

/-- An entry of a managed instance's `__dict__`: either a cached wrapper put
there by `SessionVar.__get__`/`__set__`, or an ordinary in-memory attribute
value. -/
inductive AttrVal where
  | wrapped (w : Wrapper)
  | plainV (v : PyVal)

/-- A managed instance: the `__instance_key__` stamped at construction and
the instance `__dict__`. -/
structure Instance where
  instance_key : String
  dict : List (String × AttrVal)

/-- The Python heap for managed instances: `PyVal.inst addr` refers to
`objs[addr]`, so two references are identity-equal iff their addresses are
equal. -/
structure Heap where
  objs : List Instance

/-- The `SessionVar` descriptor, bound to one annotated attribute name. -/
structure SessionVar where
  name : String

/-- `SessionVar._make_key`: derive the field key `{instance_key}.{name}`. -/
def SessionVar.make_key (sv : SessionVar) (i : Instance) : String :=
  i.instance_key ++ "." ++ sv.name

/-- `SessionVar.__get__` (for `instance is not None`): validate the field
key, read the stored value (`None` when the key is absent), build a fresh
wrapper, cache it in the instance `__dict__`, and return it. The session
store is passed in and returned so that its (non-)mutation is explicit. -/
def SessionVar.get (valid : String → Bool) (sv : SessionVar) (addr : Nat)
    (i : Instance) (state : Store) : Except Err Wrapper × Instance × Store :=
  let key := sv.make_key i
  if valid key then
    let value : PyVal :=
      match storeLookup state key with
      | some v => v
      | Option.none => .none
    let wrapped : Wrapper := { value := value, key := key, descrName := sv.name, instRef := addr }
    (.ok wrapped, { i with dict := dictSet i.dict sv.name (.wrapped wrapped) }, state)
  else (.error .invalidKeyError, i, state)

/-- `SessionVar.__set__`: validate the field key, cache a fresh wrapper in
the instance `__dict__`, and store the raw value in the session store. -/
def SessionVar.set (valid : String → Bool) (sv : SessionVar) (addr : Nat)
    (i : Instance) (state : Store) (value : PyVal) : Except Err Unit × Instance × Store :=
  let key := sv.make_key i
  if valid key then
    let wrapped : Wrapper := { value := value, key := key, descrName := sv.name, instRef := addr }
    (.ok (), { i with dict := dictSet i.dict sv.name (.wrapped wrapped) }, storeSet state key value)
  else (.error .invalidKeyError, i, state)

/-- Identity of a class built by the metaclass: its `__module__` and
`__name__`, the two components of the derived instance key. -/
structure ClassInfo where
  module : String
  clsName : String

/-- The type of a user `__init__`: it receives the remaining positional and
keyword arguments and may set attributes on the freshly allocated instance
(its `__dict__`) and write to the session store (e.g. by assigning annotated
fields). It cannot rebind the already-stamped `__instance_key__`. -/
def InitFn : Type :=
  List PyVal → List (String × PyVal) → List (String × AttrVal) → Store →
    List (String × AttrVal) × Store

/-- `MetaSessionState.__call__`: pop `instance_key` from the keyword
arguments (raising `KeyError` when absent), derive the composite instance key
`{module}_{name}_{id}`, validate it, and either return the instance already
stored under that key unchanged, or allocate a fresh instance, stamp its
`__instance_key__`, run `__init__` with the remaining arguments, store the
instance, and return `state[instance_key]`. -/
def MetaSessionState.call (valid : String → Bool) (cls : ClassInfo) (init : InitFn)
    (args : List PyVal) (kwargs : List (String × PyVal))
    (heap : Heap) (state : Store) : Except Err PyVal × Heap × Store :=
  match dictLookup kwargs "instance_key" with
  | Option.none => (.error .keyError, heap, state)
  | some ikVal =>
      let kwargsRest := dictRemove kwargs "instance_key"
      let instance_key := cls.module ++ "_" ++ cls.clsName ++ "_" ++ pyStr ikVal
      if valid instance_key then
        match storeLookup state instance_key with
        | some v => (.ok v, heap, state)
        | Option.none =>
            let addr := heap.objs.length
            let (d, s2) := init args kwargsRest [] state
            let i : Instance := { instance_key := instance_key, dict := d }
            let heap2 : Heap := { objs := heap.objs ++ [i] }
            let s3 := storeSet s2 instance_key (.inst addr)
            match storeLookup s3 instance_key with
            | some v => (.ok v, heap2, s3)
            | Option.none => (.error .keyError, heap2, s3)
      else (.error .invalidKeyError, heap, state)

/-- A class attribute as it sits in a class `__dict__` after class creation:
either a plain value or a `SessionVar` descriptor. -/
inductive ClassAttr where
  | plain (v : PyVal)
  | sessionVar (sv : SessionVar)

/-- The class dictionary handed to `MetaSessionState.__new__`: the plain
attributes written in the class body, and the keys of the class body's own
`__annotations__` dict (`class_dict.get("__annotations__", {})`). -/
structure ClassDict where
  attrs : List (String × PyVal)
  annotations : List String

/-- A created class: its own attribute `__dict__` (after the metaclass
rewrote annotated names) and the class dictionaries of its bases. -/
structure PyClass where
  ownAttrs : List (String × ClassAttr)
  baseDicts : List ClassDict

/-- `MetaSessionState.__new__`: build the class via `type.__new__` and then,
for every name in the class body's own `__annotations__`, replace that class
attribute with a fresh `SessionVar` bound to the name. Bases are recorded but
their annotations are never consulted. -/
def MetaSessionState.new (class_dict : ClassDict) (bases : List ClassDict) : PyClass :=
  { ownAttrs :=
      class_dict.annotations.foldl
        (fun attrs var_name => dictSet attrs var_name (ClassAttr.sessionVar { name := var_name }))
        (class_dict.attrs.map (fun p => (p.1, ClassAttr.plain p.2))),
    baseDicts := bases }

/-- Python attribute read on a managed instance, restricted to the class's
own attributes: a `SessionVar` is a data descriptor, so it takes precedence
over the instance `__dict__` and its `__get__` runs; otherwise ordinary
lookup consults the instance `__dict__` and then the class attribute. -/
def instanceGetattr (valid : String → Bool) (c : PyClass) (addr : Nat)
    (i : Instance) (state : Store) (name : String) : Except Err AttrVal × Instance × Store :=
  match dictLookup c.ownAttrs name with
  | some (ClassAttr.sessionVar sv) =>
      match SessionVar.get valid sv addr i state with
      | (.ok w, i2, s2) => (.ok (.wrapped w), i2, s2)
      | (.error e, i2, s2) => (.error e, i2, s2)
  | other =>
      match dictLookup i.dict name with
      | some a => (.ok a, i, state)
      | Option.none =>
          match other with
          | some (ClassAttr.plain v) => (.ok (.plainV v), i, state)
          | _ => (.error .attributeError, i, state)

/-- Python attribute write on a managed instance: a `SessionVar` data
descriptor intercepts the write via `__set__`; any other name becomes an
ordinary in-memory instance attribute and never touches the store. -/
def instanceSetattr (valid : String → Bool) (c : PyClass) (addr : Nat)
    (i : Instance) (state : Store) (name : String) (v : PyVal) :
    Except Err Unit × Instance × Store :=
  match dictLookup c.ownAttrs name with
  | some (ClassAttr.sessionVar sv) => SessionVar.set valid sv addr i state v
  | _ => (.ok (), { i with dict := dictSet i.dict name (.plainV v) }, state)

theorem string_append_left_cancel {p a b : String} (h : p ++ a = p ++ b) : a = b := by
  apply String.ext
  have h2 : (p ++ a).data = (p ++ b).data := by rw [h]
  rw [String.data_append, String.data_append] at h2
  exact List.append_cancel_left h2

theorem string_append_right_cancel {a b s : String} (h : a ++ s = b ++ s) : a = b := by
  apply String.ext
  have h2 : (a ++ s).data = (b ++ s).data := by rw [h]
  rw [String.data_append, String.data_append] at h2
  exact List.append_cancel_right h2

/-- The derived composite instance key for class `cls` and the kwarg value
`ikVal` supplied under `instance_key`. -/
def derivedKey (cls : ClassInfo) (ikVal : PyVal) : String :=
  cls.module ++ "_" ++ cls.clsName ++ "_" ++ pyStr ikVal

/-- A construction call that finds the instance key already in the store is a
pure cache hit: it returns the stored value and leaves heap and store
untouched. -/
theorem call_hit (valid : String → Bool) (cls : ClassInfo) (init : InitFn)
    (args : List PyVal) (kwargs : List (String × PyVal)) (heap : Heap) (state : Store)
    (ikVal v : PyVal)
    (hk : dictLookup kwargs "instance_key" = some ikVal)
    (hv : valid (derivedKey cls ikVal) = true)
    (hs : storeLookup state (derivedKey cls ikVal) = some v) :
    MetaSessionState.call valid cls init args kwargs heap state = (.ok v, heap, state) := by
  unfold MetaSessionState.call
  rw [hk]
  simp only [derivedKey] at hv hs
  simp [hv, hs]

/-- A construction call that does not find the instance key in the store
allocates a fresh instance at the next heap address, stamps the derived key
on it, runs `__init__`, stores the instance reference, and returns it. -/
theorem call_fresh (valid : String → Bool) (cls : ClassInfo) (init : InitFn)
    (args : List PyVal) (kwargs : List (String × PyVal)) (heap : Heap) (state : Store)
    (ikVal : PyVal)
    (hk : dictLookup kwargs "instance_key" = some ikVal)
    (hv : valid (derivedKey cls ikVal) = true)
    (hs : storeLookup state (derivedKey cls ikVal) = Option.none) :
    MetaSessionState.call valid cls init args kwargs heap state =
      (.ok (.inst heap.objs.length),
       ⟨heap.objs ++ [⟨derivedKey cls ikVal,
          (init args (dictRemove kwargs "instance_key") [] state).1⟩]⟩,
       storeSet (init args (dictRemove kwargs "instance_key") [] state).2
         (derivedKey cls ikVal) (.inst heap.objs.length)) := by
  unfold MetaSessionState.call
  rw [hk]
  simp only [derivedKey, storeLookup] at hv hs ⊢
  rcases hI : init args (dictRemove kwargs "instance_key") [] state with ⟨d, s2⟩
  simp [hv, hs, hI, storeLookup, storeSet, dictLookup_dictSet_self]

/-- On any successful construction call the final store maps the derived
instance key to the returned value, and the derived key passed validation. -/
theorem call_ok_lookup (valid : String → Bool) (cls : ClassInfo) (init : InitFn)
    (args : List PyVal) (kwargs : List (String × PyVal)) (heap : Heap) (state : Store)
    (v1 : PyVal) (h1 : Heap) (s1 : Store) (ikVal : PyVal)
    (hk : dictLookup kwargs "instance_key" = some ikVal)
    (hc : MetaSessionState.call valid cls init args kwargs heap state = (.ok v1, h1, s1)) :
    valid (derivedKey cls ikVal) = true ∧ storeLookup s1 (derivedKey cls ikVal) = some v1 := by
  by_cases hv : valid (derivedKey cls ikVal) = true
  · refine ⟨hv, ?_⟩
    cases hs : storeLookup state (derivedKey cls ikVal) with
    | some v =>
        rw [call_hit valid cls init args kwargs heap state ikVal v hk hv hs] at hc
        simp only [Prod.mk.injEq, Except.ok.injEq] at hc
        obtain ⟨rfl, rfl, rfl⟩ := hc
        exact hs
    | none =>
        rw [call_fresh valid cls init args kwargs heap state ikVal hk hv hs] at hc
        simp only [Prod.mk.injEq, Except.ok.injEq] at hc
        obtain ⟨rfl, rfl, rfl⟩ := hc
        simp [storeLookup, storeSet, dictLookup_dictSet_self]
  · exfalso
    unfold MetaSessionState.call at hc
    rw [hk] at hc
    simp only [derivedKey] at hv
    simp [hv] at hc

/-- C4: calling a managed class without the reserved keyword argument
`instance_key` raises `KeyError`, and the heap and the session store are
returned exactly as they were: no instance is created and nothing is stored
under any key. -/
theorem call_missing_instance_key (valid : String → Bool) (cls : ClassInfo) (init : InitFn)
    (args : List PyVal) (kwargs : List (String × PyVal)) (heap : Heap) (state : Store)
    (hk : dictLookup kwargs "instance_key" = Option.none) :
    MetaSessionState.call valid cls init args kwargs heap state
      = (.error .keyError, heap, state) := by
  unfold MetaSessionState.call
  rw [hk]

theorem call_missing_instance_key_witness :
    MetaSessionState.call (fun _ => true) ⟨"m", "C"⟩ (fun _ _ d s => (d, s)) [.int 7]
      [("other", .int 1)] ⟨[]⟩ [("m_C_a", .inst 0)]
      = (.error .keyError, ⟨[]⟩, [("m_C_a", .inst 0)]) :=
  call_missing_instance_key (fun _ => true) ⟨"m", "C"⟩ (fun _ _ d s => (d, s)) [.int 7]
    [("other", .int 1)] ⟨[]⟩ [("m_C_a", .inst 0)] rfl

/-- C9: `SessionVar.__get__` never writes to the session store: for every
instance and field, the store handed back by a read is exactly the store
handed in, also when the field key is absent (the `None` sentinel is not
persisted) and also when key validation fails. -/
theorem get_preserves_store (valid : String → Bool) (sv : SessionVar) (addr : Nat)
    (i : Instance) (state : Store) :
    (SessionVar.get valid sv addr i state).2.2 = state := by
  unfold SessionVar.get
  by_cases h : valid (sv.make_key i) = true <;> simp [h]

/-- C6: reading an annotated field whose field key is absent from the session
store does not raise: it returns a forwarding wrapper around `None`. -/
theorem read_unwritten_field (valid : String → Bool) (sv : SessionVar) (addr : Nat)
    (i : Instance) (s : Store)
    (hv : valid (sv.make_key i) = true)
    (habsent : storeLookup s (sv.make_key i) = Option.none) :
    (SessionVar.get valid sv addr i s).1
      = .ok { value := PyVal.none, key := sv.make_key i, descrName := sv.name, instRef := addr } := by
  unfold SessionVar.get
  simp [hv, habsent]

theorem read_unwritten_field_witness :
    (SessionVar.get (fun _ => true) ⟨"count"⟩ 0 ⟨"m_C_b", []⟩ [("m_C_a.count", .int 1)]).1
      = .ok { value := PyVal.none, key := "m_C_b.count", descrName := "count", instRef := 0 } :=
  read_unwritten_field (fun _ => true) ⟨"count"⟩ 0 ⟨"m_C_b", []⟩ [("m_C_a.count", .int 1)]
    rfl rfl

/-- C3 counterexample: assigning to the `key` attribute of a wrapper around a
plain object does not raise an immutability error; `_Wrapper.__setattr__`
only protects the four underscore slots, so the write is forwarded to the
wrapped value and succeeds. -/
theorem wrapper_key_assignment_counterexample :
    Wrapper.setattrW { value := .obj [], key := "m_C_a.f", descrName := "f", instRef := 0 }
        "key" (.int 1)
      = .ok { value := .obj [("key", .int 1)], key := "m_C_a.f", descrName := "f", instRef := 0 } :=
  rfl

/-- C3 amended: assigning to any of the internal bookkeeping slots `_value`,
`_key`, `_descriptor`, `_instance` raises `AttributeError`; assigning to any
other name — `key` included — is forwarded to `setattr` on the wrapped value;
and the wrapper's own stored key survives every successful attribute write,
so the `key` property keeps returning the derived key. -/
theorem wrapper_setattr_protection (w w2 : Wrapper) (name : String) (v : PyVal) :
    (name ∈ internalNames → Wrapper.setattrW w name v = .error .attributeError) ∧
    (name ∉ internalNames →
       Wrapper.setattrW w name v = (pySetattr w.value name v).map
         (fun nv => { w with value := nv })) ∧
    (Wrapper.setattrW w name v = .ok w2 →
       w2.key = w.key ∧ Wrapper.getattrW w2 "key" = .ok (.str w.key)) := by
  refine ⟨fun h => ?_, fun h => ?_, fun h => ?_⟩
  · unfold Wrapper.setattrW
    simp [h]
  · unfold Wrapper.setattrW
    simp only [h, if_false]
    cases pySetattr w.value name v <;> simp [Except.map]
  · unfold Wrapper.setattrW at h
    by_cases hm : name ∈ internalNames
    · simp [hm] at h
    · simp only [hm, if_false, ite_false] at h
      cases hps : pySetattr w.value name v <;> rw [hps] at h
      · simp at h
      · simp only [Except.ok.injEq] at h
        subst h
        exact ⟨rfl, rfl⟩

theorem wrapper_setattr_protection_witness :
    Wrapper.setattrW { value := .obj [], key := "k", descrName := "f", instRef := 0 }
        "_key" (.int 1) = .error .attributeError :=
  (wrapper_setattr_protection
      { value := .obj [], key := "k", descrName := "f", instRef := 0 }
      { value := .obj [], key := "k", descrName := "f", instRef := 0 }
      "_key" (.int 1)).1 (by decide)

/-- C1: after any successful construction call, calling the class again with
the same `instance_key` value is a pure cache hit: whatever positional or
keyword arguments and whatever `__init__` the second call carries, it returns
the identical instance (the same heap reference) and leaves the heap and the
session store — hence every field value — exactly unchanged. -/
theorem call_twice_cache_hit (valid : String → Bool) (cls : ClassInfo)
    (init1 init2 : InitFn) (args1 args2 : List PyVal)
    (kwargs1 kwargs2 : List (String × PyVal)) (heap : Heap) (state : Store)
    (v1 : PyVal) (h1 : Heap) (s1 : Store) (ikVal : PyVal)
    (hk1 : dictLookup kwargs1 "instance_key" = some ikVal)
    (hk2 : dictLookup kwargs2 "instance_key" = some ikVal)
    (hc1 : MetaSessionState.call valid cls init1 args1 kwargs1 heap state = (.ok v1, h1, s1)) :
    MetaSessionState.call valid cls init2 args2 kwargs2 h1 s1 = (.ok v1, h1, s1) := by
  obtain ⟨hv, hl⟩ :=
    call_ok_lookup valid cls init1 args1 kwargs1 heap state v1 h1 s1 ikVal hk1 hc1
  exact call_hit valid cls init2 args2 kwargs2 h1 s1 ikVal v1 hk2 hv hl

theorem call_twice_cache_hit_witness :
    MetaSessionState.call (fun _ => true) ⟨"m", "C"⟩
        (fun _ _ d s => (d, dictSet s "m_C_a.count" (.int 99))) [.int 7]
        [("instance_key", .str "a"), ("x", .int 5)]
        ⟨[⟨"m_C_a", []⟩]⟩ [("m_C_a", .inst 0)]
      = (.ok (.inst 0), ⟨[⟨"m_C_a", []⟩]⟩, [("m_C_a", .inst 0)]) :=
  call_twice_cache_hit (fun _ => true) ⟨"m", "C"⟩
    (fun _ _ d s => (d, s)) (fun _ _ d s => (d, dictSet s "m_C_a.count" (.int 99)))
    [] [.int 7] [("instance_key", .str "a")] [("instance_key", .str "a"), ("x", .int 5)]
    ⟨[]⟩ [] (.inst 0) ⟨[⟨"m_C_a", []⟩]⟩ [("m_C_a", .inst 0)] (.str "a") rfl rfl rfl

/-- C2: writing value `v` to an annotated field and then reading that field
returns a wrapper whose wrapped value is `v`, which compares equal to `v`
under `__eq__`, and which forwards subscription, iteration, `len`, and
non-internal attribute access to `v`. -/
theorem write_then_read (valid : String → Bool) (sv : SessionVar) (addr : Nat)
    (i : Instance) (s : Store) (v : PyVal)
    (hv : valid (sv.make_key i) = true) :
    (SessionVar.get valid sv addr (SessionVar.set valid sv addr i s v).2.1
        (SessionVar.set valid sv addr i s v).2.2).1
      = .ok { value := v, key := sv.make_key i, descrName := sv.name, instRef := addr } ∧
    Wrapper.eqW { value := v, key := sv.make_key i, descrName := sv.name, instRef := addr } v
      = true ∧
    (∀ item, Wrapper.getitem
        { value := v, key := sv.make_key i, descrName := sv.name, instRef := addr } item
      = pyGetItem v item) ∧
    Wrapper.iterW { value := v, key := sv.make_key i, descrName := sv.name, instRef := addr }
      = pyIter v ∧
    Wrapper.lenW { value := v, key := sv.make_key i, descrName := sv.name, instRef := addr }
      = pyLen v ∧
    (∀ a, a ∉ internalNames → a ≠ "key" →
      Wrapper.getattrW { value := v, key := sv.make_key i, descrName := sv.name, instRef := addr } a
        = pyGetattr v a) := by
  refine ⟨?_, ?_, fun item => rfl, rfl, rfl, fun a ha hk => ?_⟩
  · have hv2 : valid (i.instance_key ++ "." ++ sv.name) = true := by
      simpa [SessionVar.make_key] using hv
    have hmk : SessionVar.make_key sv (SessionVar.set valid sv addr i s v).2.1
        = sv.make_key i := by
      unfold SessionVar.set
      simp [hv2, SessionVar.make_key]
    have hst : (SessionVar.set valid sv addr i s v).2.2 = storeSet s (sv.make_key i) v := by
      unfold SessionVar.set
      simp [hv2, SessionVar.make_key]
    unfold SessionVar.get
    rw [hmk, hst]
    simp [hv, storeLookup, storeSet, dictLookup_dictSet_self]
  · exact PyVal.beq_refl v
  · simp only [internalNames, List.mem_cons, List.mem_singleton, not_or] at ha
    obtain ⟨h1, h2, h3, h4, _⟩ := ha
    unfold Wrapper.getattrW
    simp [hk, h1, h2, h3, h4]

/-- C5: a fresh construction with caller-supplied identifier `k` stamps the
instance at the next heap address with `__instance_key__` equal to
`{module}_{name}_{k}`; neither `SessionVar.__get__` nor `__set__` ever
changes a stamped instance key; and every successful field read returns a
wrapper whose `key` is the instance key followed by `.` and the field name. -/
theorem instance_key_stamped (valid : String → Bool) (cls : ClassInfo) (init : InitFn)
    (args : List PyVal) (kwargs : List (String × PyVal)) (heap : Heap) (state : Store)
    (k : String)
    (hk : dictLookup kwargs "instance_key" = some (.str k))
    (hv : valid (cls.module ++ "_" ++ cls.clsName ++ "_" ++ k) = true)
    (hfresh : storeLookup state (cls.module ++ "_" ++ cls.clsName ++ "_" ++ k)
      = Option.none) :
    (MetaSessionState.call valid cls init args kwargs heap state).1
      = .ok (.inst heap.objs.length) ∧
    ((MetaSessionState.call valid cls init args kwargs heap state).2.1).objs.get?
        heap.objs.length
      = some ⟨cls.module ++ "_" ++ cls.clsName ++ "_" ++ k,
              (init args (dictRemove kwargs "instance_key") [] state).1⟩ ∧
    (∀ (sv : SessionVar) (a : Nat) (i : Instance) (st : Store),
       ((SessionVar.get valid sv a i st).2.1).instance_key = i.instance_key) ∧
    (∀ (sv : SessionVar) (a : Nat) (i : Instance) (st : Store) (v : PyVal),
       ((SessionVar.set valid sv a i st v).2.1).instance_key = i.instance_key) ∧
    (∀ (f : String) (a : Nat) (i : Instance) (st : Store) (w : Wrapper),
       (SessionVar.get valid ⟨f⟩ a i st).1 = .ok w →
       w.key = i.instance_key ++ "." ++ f) := by
  have hv2 : valid (derivedKey cls (.str k)) = true := by
    simpa [derivedKey, pyStr] using hv
  have hfresh2 : storeLookup state (derivedKey cls (.str k)) = Option.none := by
    simpa [derivedKey, pyStr] using hfresh
  have hcf := call_fresh valid cls init args kwargs heap state (.str k) hk hv2 hfresh2
  refine ⟨?_, ?_, ?_, ?_, ?_⟩
  · rw [hcf]
  · rw [hcf]
    simp [List.getElem?_concat_length, derivedKey, pyStr]
  · intro sv a i st
    unfold SessionVar.get
    by_cases h : valid (sv.make_key i) = true <;> simp [h]
  · intro sv a i st v
    unfold SessionVar.set
    by_cases h : valid (sv.make_key i) = true <;> simp [h]
  · intro f a i st w hw
    unfold SessionVar.get at hw
    by_cases h : valid (SessionVar.make_key ⟨f⟩ i) = true
    · simp only [h, if_true, ite_true, Except.ok.injEq] at hw
      rw [← hw]
      rfl
    · simp [h] at hw

theorem instance_key_stamped_witness :
    ((MetaSessionState.call (fun _ => true) ⟨"m", "C"⟩ (fun _ _ d s => (d, s)) []
        [("instance_key", .str "a")] ⟨[]⟩ []).2.1).objs.get? 0
      = some ⟨"m_C_a", []⟩ :=
  (instance_key_stamped (fun _ => true) ⟨"m", "C"⟩ (fun _ _ d s => (d, s)) []
    [("instance_key", .str "a")] ⟨[]⟩ [] "a" rfl rfl rfl).2.1

/-- C7: for distinct identifiers `k1 ≠ k2` the derived instance keys differ,
two fresh constructions return two distinct heap references, every
same-named field lives under distinct field keys, and a field write through
the first instance leaves the second instance's same-named field key in the
store untouched. -/
theorem distinct_identifiers_isolated (valid : String → Bool) (cls : ClassInfo)
    (init1 init2 : InitFn) (args1 args2 : List PyVal)
    (kwargs1 kwargs2 : List (String × PyVal)) (heap : Heap) (state : Store)
    (k1 k2 : String)
    (hne : k1 ≠ k2)
    (hk1 : dictLookup kwargs1 "instance_key" = some (.str k1))
    (hk2 : dictLookup kwargs2 "instance_key" = some (.str k2))
    (hv1 : valid (derivedKey cls (.str k1)) = true)
    (hv2 : valid (derivedKey cls (.str k2)) = true)
    (hfresh1 : storeLookup state (derivedKey cls (.str k1)) = Option.none)
    (hfresh2 : storeLookup
        (MetaSessionState.call valid cls init1 args1 kwargs1 heap state).2.2
        (derivedKey cls (.str k2)) = Option.none) :
    derivedKey cls (.str k1) ≠ derivedKey cls (.str k2) ∧
    (MetaSessionState.call valid cls init1 args1 kwargs1 heap state).1
      = .ok (.inst heap.objs.length) ∧
    (MetaSessionState.call valid cls init2 args2 kwargs2
        (MetaSessionState.call valid cls init1 args1 kwargs1 heap state).2.1
        (MetaSessionState.call valid cls init1 args1 kwargs1 heap state).2.2).1
      = .ok (.inst (heap.objs.length + 1)) ∧
    PyVal.inst heap.objs.length ≠ PyVal.inst (heap.objs.length + 1) ∧
    (∀ f : String,
       derivedKey cls (.str k1) ++ "." ++ f ≠ derivedKey cls (.str k2) ++ "." ++ f) ∧
    (∀ (f : String) (st : Store) (v : PyVal) (a : Nat) (i1 : Instance),
       i1.instance_key = derivedKey cls (.str k1) →
       storeLookup ((SessionVar.set valid ⟨f⟩ a i1 st v).2.2)
           (derivedKey cls (.str k2) ++ "." ++ f)
         = storeLookup st (derivedKey cls (.str k2) ++ "." ++ f)) := by
  have hkne : derivedKey cls (.str k1) ≠ derivedKey cls (.str k2) := by
    intro h
    simp only [derivedKey, pyStr] at h
    exact hne (string_append_left_cancel h)
  have hcf1 := call_fresh valid cls init1 args1 kwargs1 heap state (.str k1) hk1 hv1 hfresh1
  have hfkne : ∀ f : String,
      derivedKey cls (.str k1) ++ "." ++ f ≠ derivedKey cls (.str k2) ++ "." ++ f := by
    intro f h
    exact hkne (string_append_right_cancel (string_append_right_cancel h))
  refine ⟨hkne, by rw [hcf1], ?_, by simp, hfkne, ?_⟩
  · have hcf2 := call_fresh valid cls init2 args2 kwargs2
      (MetaSessionState.call valid cls init1 args1 kwargs1 heap state).2.1
      (MetaSessionState.call valid cls init1 args1 kwargs1 heap state).2.2
      (.str k2) hk2 hv2 hfresh2
    rw [hcf2, hcf1]
    simp
  · intro f st v a i1 hik
    unfold SessionVar.set
    by_cases h : valid (SessionVar.make_key ⟨f⟩ i1) = true
    · simp only [h, if_true, ite_true]
      simp only [storeLookup, storeSet, SessionVar.make_key, hik]
      exact dictLookup_dictSet_ne _ _ _ _ (hfkne f)
    · simp [h]

theorem distinct_identifiers_isolated_witness :
    (MetaSessionState.call (fun _ => true) ⟨"m", "C"⟩ (fun _ _ d s => (d, s)) []
        [("instance_key", .str "b")]
        (MetaSessionState.call (fun _ => true) ⟨"m", "C"⟩ (fun _ _ d s => (d, s)) []
          [("instance_key", .str "a")] ⟨[]⟩ []).2.1
        (MetaSessionState.call (fun _ => true) ⟨"m", "C"⟩ (fun _ _ d s => (d, s)) []
          [("instance_key", .str "a")] ⟨[]⟩ []).2.2).1
      = .ok (.inst 1) :=
  (distinct_identifiers_isolated (fun _ => true) ⟨"m", "C"⟩
    (fun _ _ d s => (d, s)) (fun _ _ d s => (d, s)) [] []
    [("instance_key", .str "a")] [("instance_key", .str "b")] ⟨[]⟩ [] "a" "b"
    (by decide) rfl rfl rfl rfl rfl rfl).2.2.1

theorem dictLookup_map_plain (l : List (String × PyVal)) (n : String) :
    dictLookup (l.map (fun p => (p.1, ClassAttr.plain p.2))) n
      = (dictLookup l n).map ClassAttr.plain := by
  induction l with
  | nil => rfl
  | cons hd tl ih =>
      obtain ⟨k1, v1⟩ := hd
      by_cases h : k1 = n <;> simp [dictLookup, h, ih]

theorem foldl_annotate_not_mem (l : List String) (d : List (String × ClassAttr)) (n : String)
    (h : n ∉ l) :
    dictLookup (l.foldl (fun attrs var_name =>
        dictSet attrs var_name (ClassAttr.sessionVar { name := var_name })) d) n
      = dictLookup d n := by
  induction l generalizing d with
  | nil => rfl
  | cons a l ih =>
      simp only [List.mem_cons, not_or] at h
      rw [List.foldl_cons, ih _ h.2, dictLookup_dictSet_ne _ _ _ _ (Ne.symm h.1)]

theorem foldl_annotate_mem (l : List String) (d : List (String × ClassAttr)) (n : String)
    (h : n ∈ l) :
    dictLookup (l.foldl (fun attrs var_name =>
        dictSet attrs var_name (ClassAttr.sessionVar { name := var_name })) d) n
      = some (ClassAttr.sessionVar { name := n }) := by
  induction l generalizing d with
  | nil => cases h
  | cons a l ih =>
      rw [List.foldl_cons]
      by_cases hm : n ∈ l
      · exact ih _ hm
      · have ha : a = n := by
          rcases List.mem_cons.mp h with h1 | h2
          · exact h1.symm
          · exact absurd h2 hm
        rw [ha, foldl_annotate_not_mem l _ n hm, dictLookup_dictSet_self]

/-- C8: class creation replaces exactly the names in the class body's own
annotations with fresh `SessionVar` descriptors bound to those names; every
non-annotated class attribute survives unchanged; and reading or writing a
non-annotated attribute on an instance neither consults nor modifies the
session store. -/
theorem metaclass_rewrites_only_annotations (cd : ClassDict) (bases : List ClassDict)
    (n : String) :
    (n ∈ cd.annotations →
       dictLookup (MetaSessionState.new cd bases).ownAttrs n
         = some (ClassAttr.sessionVar { name := n })) ∧
    (n ∉ cd.annotations →
       dictLookup (MetaSessionState.new cd bases).ownAttrs n
         = (dictLookup cd.attrs n).map ClassAttr.plain) ∧
    (n ∉ cd.annotations →
       ∀ (valid : String → Bool) (addr : Nat) (i : Instance) (s1 s2 : Store) (v : PyVal),
         (instanceGetattr valid (MetaSessionState.new cd bases) addr i s1 n).2.2 = s1 ∧
         (instanceGetattr valid (MetaSessionState.new cd bases) addr i s1 n).1
           = (instanceGetattr valid (MetaSessionState.new cd bases) addr i s2 n).1 ∧
         (instanceSetattr valid (MetaSessionState.new cd bases) addr i s1 n v).2.2 = s1) := by
  have hmem : ∀ h : n ∈ cd.annotations,
      dictLookup (MetaSessionState.new cd bases).ownAttrs n
        = some (ClassAttr.sessionVar { name := n }) := fun h =>
    foldl_annotate_mem _ _ _ h
  have hnotmem : ∀ _h : n ∉ cd.annotations,
      dictLookup (MetaSessionState.new cd bases).ownAttrs n
        = (dictLookup cd.attrs n).map ClassAttr.plain := fun h => by
    unfold MetaSessionState.new
    rw [foldl_annotate_not_mem _ _ _ h, dictLookup_map_plain]
  refine ⟨hmem, hnotmem, fun hn valid addr i s1 s2 v => ?_⟩
  have h2 := hnotmem hn
  refine ⟨?_, ?_, ?_⟩
  · unfold instanceGetattr
    rw [h2]
    cases hca : dictLookup cd.attrs n <;>
      cases hid : dictLookup i.dict n <;> simp [hca, hid]
  · unfold instanceGetattr
    rw [h2]
    cases hca : dictLookup cd.attrs n <;>
      cases hid : dictLookup i.dict n <;> simp [hca, hid]
  · unfold instanceSetattr
    rw [h2]
    cases hca : dictLookup cd.attrs n <;> simp [hca]

theorem metaclass_rewrites_only_annotations_witness :
    dictLookup (MetaSessionState.new ⟨[("helper", .int 3)], ["count"]⟩ []).ownAttrs "count"
      = some (ClassAttr.sessionVar { name := "count" }) :=
  (metaclass_rewrites_only_annotations ⟨[("helper", .int 3)], ["count"]⟩ [] "count").1
    (by decide)

/-- C10: only the class body's own annotations are rewritten: a name
annotated in a base class but not in the new class body keeps exactly the
class body's own attribute entry (it is not wrapped into a descriptor), and
the created class's attribute dict does not depend on the bases at all. -/
theorem inherited_annotations_not_rewrapped (cd : ClassDict) (bases bases2 : List ClassDict)
    (n : String)
    (hn : n ∉ cd.annotations)
    (hb : ∃ b ∈ bases, n ∈ b.annotations) :
    dictLookup (MetaSessionState.new cd bases).ownAttrs n
      = (dictLookup cd.attrs n).map ClassAttr.plain ∧
    (MetaSessionState.new cd bases).ownAttrs = (MetaSessionState.new cd bases2).ownAttrs := by
  refine ⟨?_, rfl⟩
  unfold MetaSessionState.new
  rw [foldl_annotate_not_mem _ _ _ hn, dictLookup_map_plain]

theorem inherited_annotations_not_rewrapped_witness :
    dictLookup (MetaSessionState.new ⟨[], []⟩ [⟨[], ["count"]⟩]).ownAttrs "count"
      = (dictLookup ([] : List (String × PyVal)) "count").map ClassAttr.plain :=
  (inherited_annotations_not_rewrapped ⟨[], []⟩ [⟨[], ["count"]⟩] [] "count"
    (by decide) ⟨⟨[], ["count"]⟩, List.mem_singleton_self _, by decide⟩).1

theorem write_then_read_witness :
    (SessionVar.get (fun _ => true) ⟨"count"⟩ 0
        (SessionVar.set (fun _ => true) ⟨"count"⟩ 0 ⟨"m_C_a", []⟩ [] (.list [.int 1, .int 2])).2.1
        (SessionVar.set (fun _ => true) ⟨"count"⟩ 0 ⟨"m_C_a", []⟩ [] (.list [.int 1, .int 2])).2.2).1
      = .ok { value := .list [.int 1, .int 2], key := "m_C_a.count",
              descrName := "count", instRef := 0 } :=
  (write_then_read (fun _ => true) ⟨"count"⟩ 0 ⟨"m_C_a", []⟩ [] (.list [.int 1, .int 2]) rfl).1
